import Mathlib

/-!
Verification of the httpx retry/middleware pipeline.

The Go sources are shallowly embedded as follows.

* `Response` keeps the two observables the claims need: the status code
  (`resp.StatusCode`, a Go `int`, modelled as `Int`) and whether the body
  field is non-nil (`resp.Body != nil`, modelled as `hasBody : Bool`).
* Go errors are modelled by `Option Err`: `none` is a nil error, `Err.canceled`
  is the error returned by `ctx.Err()` after cancellation, and
  `Err.transport code` is any transport-level error from the base transport.
* The request's cancellation context is modelled by a logical cancellation
  instant `cancelAt : Option Nat` over the suspension points of one
  `RoundTrip` call: the context check at the top of iteration `a` happens at
  time `2*a`, and the backoff wait after attempt `a` spans time `2*a + 1`.
  The context is observed cancelled at a point iff `cancelAt` is at or before
  that point; the `select` between `time.After` and `ctx.Done()` resolves to
  `ctx.Done()` exactly when the context is cancelled by the wait's instant.
* The base transport (`rt.base.RoundTrip`) is an oracle
  `base : Nat → Option Response × Option Err` giving the outcome of the i-th
  invocation.
* Body closes (`resp.Body.Close()`) are logged: the result records, in order,
  the attempt indices whose response body was closed during the call.
* Durations (`time.Duration`, int64 nanoseconds) and the `float64` arithmetic
  of `calculateBackoff` are modelled exactly over `ℚ`; the final truncating
  `time.Duration(backoff)` conversion and float rounding are idealized away,
  as the numeric claims concern the ideal arithmetic.
-/

namespace Httpx

/-- Model of the observable part of `*http.Response`: the status code and
whether the `Body` field is non-nil. -/
structure Response where
  statusCode : Int
  hasBody : Bool
deriving DecidableEq, Repr

/-- Model of a non-nil Go error reaching the retry layer: either the
cancellation error produced by `ctx.Err()`, or a transport-level error
(tagged by an arbitrary code) from the base transport. -/
inductive Err where
  | canceled : Err
  | transport (code : Nat) : Err
deriving DecidableEq, Repr

/-- Embedding of `DefaultRetryIf` (src/retry.go lines 13-22): retry on any
non-nil error; otherwise, with a nil response, do not retry; otherwise retry
iff the status code is >= 500 or equals 429. -/
def DefaultRetryIf (resp : Option Response) (err : Option Err) : Bool :=
  if err.isSome then
    true
  else
    match resp with
    | none => false
    | some r => decide (500 ≤ r.statusCode) || decide (r.statusCode = 429)

/-- Embedding of the `retryTransport` struct (src/retry.go lines 25-31); the
`base` round tripper is supplied separately as an invocation oracle. -/
structure retryTransport where
  maxRetries : Int
  minBackoff : ℚ
  maxBackoff : ℚ
  retryIf : Option Response → Option Err → Bool

/-- Whether the request context is observed cancelled at logical instant `t`:
true iff the cancellation instant `cancelAt` is at or before `t`. -/
def ctxDoneAt (cancelAt : Option Nat) (t : Nat) : Bool :=
  match cancelAt with
  | none => false
  | some T => T ≤ t

/-- The Go condition `resp != nil && resp.Body != nil` guarding the body
close in `RoundTrip` (src/retry.go line 66). -/
def respHasBody : Option Response → Bool
  | none => false
  | some r => r.hasBody

/-- Observable outcome of one `retryTransport.RoundTrip` call: the returned
response and error, the number of invocations of the base transport, and the
ordered list of attempt indices whose response body was closed. -/
structure RTResult where
  resp : Option Response
  err : Option Err
  invocations : Nat
  closed : List Nat
deriving DecidableEq, Repr

/-- Embedding of the `for attempt := 0; attempt <= rt.maxRetries; attempt++`
loop of `retryTransport.RoundTrip` (src/retry.go lines 38-69). `fuel` is the
number of loop iterations still allowed by the loop condition
(`rt.maxRetries + 1 - attempt`, so `fuel = 0` is exactly the loop-condition
failure `attempt > rt.maxRetries`); `resp` and `err` are the loop-carried
variables, consulted only by the post-loop `return resp, err`. Each iteration
mirrors the source order: context check, base invocation, retry decision,
cancellable backoff wait, body close of the just-received response. -/
def RoundTripLoop (rt : retryTransport) (base : Nat → Option Response × Option Err)
    (cancelAt : Option Nat) :
    Nat → Nat → Option Response → Option Err → List Nat → RTResult
  | 0, attempt, resp, err, closed => ⟨resp, err, attempt, closed⟩
  | fuel + 1, attempt, _, _, closed =>
    if ctxDoneAt cancelAt (2 * attempt) then
      ⟨none, some Err.canceled, attempt, closed⟩
    else
      let r := base attempt
      let shouldRetry := rt.retryIf r.1 r.2
      if shouldRetry = false ∨ (attempt : Int) = rt.maxRetries then
        ⟨r.1, r.2, attempt + 1, closed⟩
      else if ctxDoneAt cancelAt (2 * attempt + 1) then
        ⟨none, some Err.canceled, attempt + 1, closed⟩
      else
        RoundTripLoop rt base cancelAt fuel (attempt + 1) r.1 r.2
          (if respHasBody r.1 then closed ++ [attempt] else closed)

/-- Embedding of `retryTransport.RoundTrip` (src/retry.go lines 33-72): run
the loop from attempt 0 with nil loop-carried response and error; when
`maxRetries < 0` the loop condition fails immediately and the post-loop
`return resp, err` returns the nil zero values. -/
def RoundTrip (rt : retryTransport) (base : Nat → Option Response × Option Err)
    (cancelAt : Option Nat) : RTResult :=
  RoundTripLoop rt base cancelAt
    (if rt.maxRetries < 0 then 0 else rt.maxRetries.toNat + 1) 0 none none []

/-- Embedding of `retryTransport.calculateBackoff` (src/retry.go lines
75-89) over exact rationals; `u` models the `rand.Float64()` draw in `[0,1)`.
The computation is `backoff = minBackoff * 2^attempt`, capped at `maxBackoff`
when strictly greater, then `jitter = backoff * 0.25 * (u*2 - 1)` is added. -/
def calculateBackoff (rt : retryTransport) (attempt : Nat) (u : ℚ) : ℚ :=
  let backoff := rt.minBackoff * 2 ^ attempt
  let capped := if backoff > rt.maxBackoff then rt.maxBackoff else backoff
  let jitter := capped * (1 / 4) * (u * 2 - 1)
  capped + jitter

/-- The pre-jitter base of `calculateBackoff`: `minBackoff * 2^attempt`,
capped at `maxBackoff` when strictly greater (src/retry.go lines 77-82). -/
def backoffBase (rt : retryTransport) (attempt : Nat) : ℚ :=
  let backoff := rt.minBackoff * 2 ^ attempt
  if backoff > rt.maxBackoff then rt.maxBackoff else backoff

theorem calculateBackoff_eq_base_mul (rt : retryTransport) (attempt : Nat) (u : ℚ) :
    calculateBackoff rt attempt u = backoffBase rt attempt * ((3 + 2 * u) / 4) := by
  unfold calculateBackoff backoffBase
  ring

theorem backoffBase_eq_min (rt : retryTransport) (attempt : Nat) :
    backoffBase rt attempt = min (rt.minBackoff * 2 ^ attempt) rt.maxBackoff := by
  unfold backoffBase
  rcases lt_or_le rt.maxBackoff (rt.minBackoff * 2 ^ attempt) with h | h
  · rw [if_pos h, min_eq_right (le_of_lt h)]
  · rw [if_neg (not_lt.mpr h), min_eq_left h]

theorem backoffBase_le_max (rt : retryTransport) (attempt : Nat) :
    backoffBase rt attempt ≤ rt.maxBackoff := by
  rw [backoffBase_eq_min]
  exact min_le_right _ _

theorem backoffBase_nonneg (rt : retryTransport) (attempt : Nat)
    (hmin : 0 ≤ rt.minBackoff) (hmax : 0 ≤ rt.maxBackoff) :
    0 ≤ backoffBase rt attempt := by
  rw [backoffBase_eq_min]
  exact le_min (by positivity) hmax

/-- Claim C1. The claim states that every discarded intermediate response's
body is closed exactly once on every discard path, including the path where
cancellation fires during the backoff wait after the response was received.
The code violates this: with maxRetries = 1, an always-true predicate, a base
transport returning a 503 response with a non-nil body, and cancellation
firing during the backoff wait after attempt 0, the call discards the
attempt-0 response (it returns nil response with the cancellation error)
yet its close log is empty — the `ctx.Done()` branch of the select returns
before the `resp.Body.Close()` statement is reached, leaking the body. -/
theorem retry_cancel_during_wait_leaks_body :
    RoundTrip ⟨1, 0, 0, fun _ _ => true⟩ (fun _ => (some ⟨503, true⟩, none)) (some 1)
      = ⟨none, some Err.canceled, 1, []⟩ ∧
    respHasBody ((fun (_ : Nat) => ((some ⟨503, true⟩ : Option Response),
      (none : Option Err))) 0).1 = true := by
  constructor
  · decide
  · decide

/-- Claim C5. `DefaultRetryIf` returns true exactly when the error is
non-nil, or the error is nil and the response is non-nil with status >= 500
or exactly 429; in particular it is true for a transport error with a nil
response and for statuses 500 and 429, and false for 200, 404, 400 and for
a nil response with a nil error. -/
theorem DefaultRetryIf_characterization :
    (∀ (resp : Option Response) (err : Option Err),
      DefaultRetryIf resp err = true ↔
        (err ≠ none ∨ ∃ r, err = none ∧ resp = some r ∧
          (500 ≤ r.statusCode ∨ r.statusCode = 429))) ∧
    DefaultRetryIf none (some (Err.transport 0)) = true ∧
    DefaultRetryIf (some ⟨503, true⟩) (some Err.canceled) = true ∧
    DefaultRetryIf (some ⟨500, false⟩) none = true ∧
    DefaultRetryIf (some ⟨429, false⟩) none = true ∧
    DefaultRetryIf (some ⟨200, false⟩) none = false ∧
    DefaultRetryIf (some ⟨404, false⟩) none = false ∧
    DefaultRetryIf (some ⟨400, false⟩) none = false ∧
    DefaultRetryIf none none = false := by
  refine ⟨?_, by decide, by decide, by decide, by decide, by decide, by decide,
    by decide, by decide⟩
  intro resp err
  rcases err with _ | e
  · rcases resp with _ | r
    · simp [DefaultRetryIf]
    · constructor
      · intro h
        refine Or.inr ⟨r, rfl, rfl, ?_⟩
        simpa [DefaultRetryIf] using h
      · rintro (h | ⟨r', -, hr, h⟩)
        · exact absurd rfl h
        · cases hr
          simpa [DefaultRetryIf] using h
  · constructor
    · intro _
      exact Or.inl (by simp)
    · intro _
      rfl

theorem retry_exhaustion_loop (rt : retryTransport) (errs : Nat → Nat) (N : Nat)
    (hmr : rt.maxRetries = (N : Int)) (hIf : ∀ r e, rt.retryIf r e = true) :
    ∀ (fuel a : Nat) (resp : Option Response) (err : Option Err) (closed : List Nat),
      a + fuel = N + 1 → 1 ≤ fuel →
      RoundTripLoop rt (fun i => (none, some (Err.transport (errs i)))) none
          fuel a resp err closed
        = ⟨none, some (Err.transport (errs N)), N + 1, closed⟩ := by
  intro fuel
  induction fuel with
  | zero => intro a resp err closed _ h1; omega
  | succ f ih =>
    intro a resp err closed hsum _
    rw [RoundTripLoop]
    rw [if_neg (by simp [ctxDoneAt])]
    dsimp only
    rw [hIf]
    by_cases ha : a = N
    · subst ha
      rw [if_pos (Or.inr (by rw [hmr]))]
    · rw [if_neg ?_, if_neg (by simp [ctxDoneAt])]
      · show RoundTripLoop rt (fun i => (none, some (Err.transport (errs i)))) none
            f (a + 1) none (some (Err.transport (errs a)))
            (if respHasBody none = true then closed ++ [a] else closed)
          = _
        rw [if_neg (by simp [respHasBody])]
        exact ih (a + 1) _ _ closed (by omega) (by omega)
      · rintro (h | h)
        · simp at h
        · rw [hmr] at h
          exact ha (by exact_mod_cast h)

/-- Claim C2. For maxRetries = N, an always-true retry predicate, and a base
transport failing with a transport error on every invocation, RoundTrip
invokes the base transport exactly N + 1 times and returns the error of the
last invocation (with a nil response and no bodies closed). -/
theorem retry_exhausts_all_attempts (N : Nat) (minB maxB : ℚ) (errs : Nat → Nat) :
    RoundTrip ⟨(N : Int), minB, maxB, fun _ _ => true⟩
        (fun i => (none, some (Err.transport (errs i)))) none
      = ⟨none, some (Err.transport (errs N)), N + 1, []⟩ := by
  unfold RoundTrip
  rw [show (⟨(N : Int), minB, maxB, fun _ _ => true⟩ : retryTransport).maxRetries
      = (N : Int) from rfl]
  rw [if_neg (by omega), Int.toNat_natCast]
  exact retry_exhaustion_loop _ errs N rfl (fun _ _ => rfl) (N + 1) 0 none none []
    (by omega) (by omega)

theorem cancel_bounds_invocations_loop (rt : retryTransport)
    (base : Nat → Option Response × Option Err) (T A : Nat) (hTA : T ≤ 2 * A) :
    ∀ (fuel a : Nat) (resp : Option Response) (err : Option Err) (closed : List Nat),
      a ≤ A →
      (RoundTripLoop rt base (some T) fuel a resp err closed).invocations ≤ A := by
  intro fuel
  induction fuel with
  | zero =>
    intro a resp err closed ha
    rw [RoundTripLoop]
    exact ha
  | succ f ih =>
    intro a resp err closed ha
    rw [RoundTripLoop]
    by_cases h1 : ctxDoneAt (some T) (2 * a) = true
    · rw [if_pos h1]
      exact ha
    · rw [if_neg h1]
      simp only [ctxDoneAt, decide_eq_true_eq] at h1
      have haA : a < A := by omega
      dsimp only
      by_cases hret : rt.retryIf (base a).1 (base a).2 = false ∨ (a : Int) = rt.maxRetries
      · rw [if_pos hret]
        exact haA
      · rw [if_neg hret]
        by_cases h2 : ctxDoneAt (some T) (2 * a + 1) = true
        · rw [if_pos h2]
          exact haA
        · rw [if_neg h2]
          exact ih (a + 1) _ _ _ haA

/-- Claim C3. If the request's cancellation context is already signalled when
RoundTrip is entered (cancellation instant 0), the base transport is invoked
zero times and the cancellation error is returned with a nil response; and
since the context is checked at the start of every iteration, no base
invocation happens at or after the cancellation instant: if the context is
cancelled by the check preceding attempt A, at most A invocations occur. -/
theorem cancelled_context_prevents_attempts (rt : retryTransport)
    (base : Nat → Option Response × Option Err) (T A : Nat)
    (hmr : 0 ≤ rt.maxRetries) :
    (T = 0 → RoundTrip rt base (some T) = ⟨none, some Err.canceled, 0, []⟩) ∧
    (T ≤ 2 * A → (RoundTrip rt base (some T)).invocations ≤ A) := by
  constructor
  · intro hT
    subst hT
    unfold RoundTrip
    rw [if_neg (not_lt.mpr hmr)]
    rw [RoundTripLoop]
    rw [if_pos (by simp [ctxDoneAt])]
  · intro hTA
    unfold RoundTrip
    rw [if_neg (not_lt.mpr hmr)]
    exact cancel_bounds_invocations_loop rt base T A hTA _ 0 none none [] (Nat.zero_le A)

theorem cancelled_context_prevents_attempts_witness :
    RoundTrip ⟨1, 0, 0, fun _ _ => true⟩ (fun _ => (none, some (Err.transport 7))) (some 0)
      = ⟨none, some Err.canceled, 0, []⟩ ∧
    (RoundTrip ⟨1, 0, 0, fun _ _ => true⟩ (fun _ => (none, some (Err.transport 7)))
        (some 0)).invocations ≤ 0 := by
  have h := cancelled_context_prevents_attempts ⟨1, 0, 0, fun _ _ => true⟩
    (fun _ => (none, some (Err.transport 7))) 0 0 (by decide)
  exact ⟨h.1 rfl, h.2 (by omega)⟩

theorem cancel_during_wait_loop (rt : retryTransport)
    (base : Nat → Option Response × Option Err) (k : Nat)
    (hIf : ∀ i, i ≤ k → rt.retryIf (base i).1 (base i).2 = true)
    (hk : (k : Int) < rt.maxRetries) :
    ∀ (fuel a : Nat) (resp : Option Response) (err : Option Err) (closed : List Nat),
      a ≤ k → k < a + fuel →
      RoundTripLoop rt base (some (2 * k + 1)) fuel a resp err closed
        = ⟨none, some Err.canceled, k + 1,
            closed ++ (List.range' a (k - a)).filter (fun i => respHasBody (base i).1)⟩ := by
  intro fuel
  induction fuel with
  | zero =>
    intro a resp err closed ha hf
    omega
  | succ f ih =>
    intro a resp err closed ha hf
    rw [RoundTripLoop]
    rw [if_neg (by simp only [ctxDoneAt, decide_eq_true_eq]; omega)]
    dsimp only
    rw [hIf a ha]
    rw [if_neg ?_]
    swap
    · rintro (h | h)
      · simp at h
      · omega
    by_cases hak : a = k
    · subst hak
      rw [if_pos (by simp only [ctxDoneAt, decide_eq_true_eq]; omega)]
      simp
    · rw [if_neg (by simp only [ctxDoneAt, decide_eq_true_eq]; omega)]
      rw [ih (a + 1) _ _ _ (by omega) (by omega)]
      have hcons : List.range' a (k - a) = a :: List.range' (a + 1) (k - (a + 1)) := by
        rw [show k - a = (k - (a + 1)) + 1 by omega, List.range'_succ]
      rw [hcons, List.filter_cons]
      by_cases hb : respHasBody (base a).1 = true
      · rw [if_pos hb, if_pos (by simp [hb])]
        simp
      · rw [if_neg hb, if_neg (by simp [hb])]

/-- Claim C4. If the cancellation context fires during the backoff wait after
attempt k (cancellation instant 2k + 1) and the retry predicate accepted all
attempts up to k, with k below maxRetries, then RoundTrip returns the
cancellation error with a nil response and exactly k + 1 base invocations
occurred — no further attempt is ever issued (only the completed waits before
attempt k closed their response bodies). -/
theorem cancel_during_backoff_stops_retries (rt : retryTransport)
    (base : Nat → Option Response × Option Err) (k : Nat)
    (hIf : ∀ i, i ≤ k → rt.retryIf (base i).1 (base i).2 = true)
    (hk : (k : Int) < rt.maxRetries) :
    RoundTrip rt base (some (2 * k + 1))
      = ⟨none, some Err.canceled, k + 1,
          (List.range k).filter (fun i => respHasBody (base i).1)⟩ := by
  unfold RoundTrip
  rw [if_neg (by omega)]
  rw [cancel_during_wait_loop rt base k hIf hk _ 0 none none [] (Nat.zero_le k) (by omega)]
  simp [List.range_eq_range']

theorem cancel_during_backoff_stops_retries_witness :
    RoundTrip ⟨3, 0, 0, fun _ _ => true⟩ (fun _ => (some ⟨503, true⟩, none)) (some 1)
      = ⟨none, some Err.canceled, 1, []⟩ := by
  have h := cancel_during_backoff_stops_retries ⟨3, 0, 0, fun _ _ => true⟩
    (fun _ => (some ⟨503, true⟩, none)) 0 (fun _ _ => rfl) (by decide)
  simpa using h

theorem cancel_error_nil_resp_loop (rt : retryTransport)
    (base : Nat → Option Response × Option Err) (cancelAt : Option Nat)
    (hbase : ∀ i, (base i).2 ≠ some Err.canceled) :
    ∀ (fuel a : Nat) (resp : Option Response) (err : Option Err) (closed : List Nat),
      (err = some Err.canceled → resp = none) →
      (RoundTripLoop rt base cancelAt fuel a resp err closed).err = some Err.canceled →
      (RoundTripLoop rt base cancelAt fuel a resp err closed).resp = none := by
  intro fuel
  induction fuel with
  | zero =>
    intro a resp err closed hcarry
    rw [RoundTripLoop]
    exact hcarry
  | succ f ih =>
    intro a resp err closed hcarry
    rw [RoundTripLoop]
    by_cases h1 : ctxDoneAt cancelAt (2 * a) = true
    · rw [if_pos h1]
      intro _
      rfl
    · rw [if_neg h1]
      dsimp only
      by_cases hret : rt.retryIf (base a).1 (base a).2 = false ∨ (a : Int) = rt.maxRetries
      · rw [if_pos hret]
        intro h
        exact absurd h (hbase a)
      · rw [if_neg hret]
        by_cases h2 : ctxDoneAt cancelAt (2 * a + 1) = true
        · rw [if_pos h2]
          intro _
          rfl
        · rw [if_neg h2]
          exact ih (a + 1) _ _ _ (fun hc => absurd hc (hbase a))

/-- Claim C10. Whenever RoundTrip returns the cancellation error while the
base transport itself never produces a cancellation error (its failures are
transport errors), the returned response is nil: the caller never receives a
response paired with a cancellation error arising from the context checks or
the backoff wait. -/
theorem cancellation_error_implies_nil_response (rt : retryTransport)
    (base : Nat → Option Response × Option Err) (cancelAt : Option Nat)
    (hbase : ∀ i, (base i).2 ≠ some Err.canceled)
    (hc : (RoundTrip rt base cancelAt).err = some Err.canceled) :
    (RoundTrip rt base cancelAt).resp = none := by
  unfold RoundTrip at hc ⊢
  exact cancel_error_nil_resp_loop rt base cancelAt hbase _ 0 none none []
    (fun _ => rfl) hc

theorem cancellation_error_implies_nil_response_witness :
    (RoundTrip ⟨2, 0, 0, fun _ _ => true⟩ (fun _ => (none, some (Err.transport 7)))
        (some 0)).resp = none := by
  exact cancellation_error_implies_nil_response ⟨2, 0, 0, fun _ _ => true⟩
    (fun _ => (none, some (Err.transport 7))) (some 0)
    (fun _ => (by decide : some (Err.transport 7) ≠ some Err.canceled)) (by decide)

/-- Claim C6. With the jitter perturbation fixed to zero (draw u = 1/2, so
`u*2 - 1 = 0`), calculateBackoff equals its pre-jitter base
`min (minBackoff * 2^attempt) maxBackoff`, which is monotonically
non-decreasing in the attempt index and saturates at maxBackoff; with
minBackoff = 100ms and maxBackoff = 200ms (in nanoseconds), attempt index 5
yields the capped value 200ms. -/
theorem calculateBackoff_base_capped_monotone (rt : retryTransport)
    (hmin : 0 ≤ rt.minBackoff) :
    (∀ a : Nat, calculateBackoff rt a (1 / 2) = min (rt.minBackoff * 2 ^ a) rt.maxBackoff) ∧
    (∀ a b : Nat, a ≤ b → calculateBackoff rt a (1 / 2) ≤ calculateBackoff rt b (1 / 2)) ∧
    calculateBackoff ⟨0, 100000000, 200000000, fun _ _ => true⟩ 5 (1 / 2) = 200000000 := by
  have hfix : ∀ (rt' : retryTransport) (a : Nat),
      calculateBackoff rt' a (1 / 2) = backoffBase rt' a := by
    intro rt' a
    rw [calculateBackoff_eq_base_mul]
    norm_num
  refine ⟨?_, ?_, ?_⟩
  · intro a
    rw [hfix, backoffBase_eq_min]
  · intro a b hab
    rw [hfix, hfix, backoffBase_eq_min, backoffBase_eq_min]
    refine min_le_min ?_ le_rfl
    exact mul_le_mul_of_nonneg_left (pow_le_pow_right₀ (by norm_num) hab) hmin
  · rw [hfix, backoffBase_eq_min]
    show min ((100000000 : ℚ) * 2 ^ 5) 200000000 = 200000000
    rw [min_eq_right (by norm_num)]

theorem calculateBackoff_base_capped_monotone_witness :
    calculateBackoff ⟨0, 100000000, 200000000, fun _ _ => true⟩ 5 (1 / 2) = 200000000 ∧
    calculateBackoff ⟨0, 100000000, 200000000, fun _ _ => true⟩ 2 (1 / 2)
      ≤ calculateBackoff ⟨0, 100000000, 200000000, fun _ _ => true⟩ 5 (1 / 2) := by
  have h := calculateBackoff_base_capped_monotone ⟨0, 100000000, 200000000, fun _ _ => true⟩
    (by norm_num : (0 : ℚ) ≤ 100000000)
  exact ⟨h.2.2, h.2.1 2 5 (by norm_num)⟩

/-- Claim C7. For a jitter draw u in [0, 1] and non-negative configured
backoffs, the jittered calculateBackoff result lies in
[0.75 * base, 1.25 * base] for the capped pre-jitter base, hence is
non-negative; the result is never re-clamped to maxBackoff, so it is bounded
by 1.25 * maxBackoff but can exceed maxBackoff: with minBackoff = 200,
maxBackoff = 100 (saturated base 100) and draw 9/10 the result is 120,
which exceeds the configured maxBackoff of 100. -/
theorem calculateBackoff_jitter_envelope (rt : retryTransport) (a : Nat) (u : ℚ)
    (hmin : 0 ≤ rt.minBackoff) (hmax : 0 ≤ rt.maxBackoff)
    (hu0 : 0 ≤ u) (hu1 : u ≤ 1) :
    (3 / 4) * backoffBase rt a ≤ calculateBackoff rt a u ∧
    calculateBackoff rt a u ≤ (5 / 4) * backoffBase rt a ∧
    0 ≤ calculateBackoff rt a u ∧
    calculateBackoff rt a u ≤ (5 / 4) * rt.maxBackoff ∧
    calculateBackoff ⟨0, 200, 100, fun _ _ => true⟩ 0 (9 / 10) = 120 ∧
    (⟨0, 200, 100, fun _ _ => true⟩ : retryTransport).maxBackoff
      < calculateBackoff ⟨0, 200, 100, fun _ _ => true⟩ 0 (9 / 10) := by
  have hb := backoffBase_nonneg rt a hmin hmax
  have hle := backoffBase_le_max rt a
  have h120 : calculateBackoff ⟨0, 200, 100, fun _ _ => true⟩ 0 (9 / 10) = 120 := by
    rw [calculateBackoff_eq_base_mul, backoffBase_eq_min]
    show min ((200 : ℚ) * 2 ^ 0) 100 * ((3 + 2 * (9 / 10)) / 4) = 120
    rw [min_eq_right (by norm_num)]
    norm_num
  rw [calculateBackoff_eq_base_mul]
  have hu' : (0 : ℚ) ≤ 1 - u := by linarith
  refine ⟨by nlinarith [mul_nonneg hb hu0], by nlinarith [mul_nonneg hb hu'],
    by nlinarith [mul_nonneg hb (by linarith : (0 : ℚ) ≤ (3 + 2 * u) / 4)],
    by nlinarith [mul_nonneg hb hu'], h120, ?_⟩
  rw [h120]
  show (100 : ℚ) < 120
  norm_num

theorem calculateBackoff_jitter_envelope_witness :
    (3 / 4) * backoffBase ⟨0, 100, 200, fun _ _ => true⟩ 0
      ≤ calculateBackoff ⟨0, 100, 200, fun _ _ => true⟩ 0 1 ∧
    calculateBackoff ⟨0, 100, 200, fun _ _ => true⟩ 0 1
      ≤ (5 / 4) * backoffBase ⟨0, 100, 200, fun _ _ => true⟩ 0 ∧
    0 ≤ calculateBackoff ⟨0, 100, 200, fun _ _ => true⟩ 0 1 := by
  have h := calculateBackoff_jitter_envelope ⟨0, 100, 200, fun _ _ => true⟩ 0 1
    (by norm_num : (0 : ℚ) ≤ 100) (by norm_num : (0 : ℚ) ≤ 200)
    (by norm_num) (le_refl 1)
  exact ⟨h.1, h.2.1, h.2.2.1⟩

/-- Model of a request context: the logical cancellation instant used by the
retry layer, and a deadline expressed as the remaining time budget. -/
structure Ctx where
  cancelAt : Option Nat
  deadline : Option ℚ
deriving DecidableEq, Repr

/-- Model of `*http.Request` as the middleware layers observe it: an ordered
list of marker tags standing for request mutations made by interceptors
(spec section 8's markers), and the attached context. -/
structure Request where
  markers : List Nat
  ctx : Ctx
deriving DecidableEq, Repr

/-- Modelled from the documented semantics of the Go standard library's
`context.WithTimeout`, which the repository calls but does not define: the
derived context keeps the parent's cancellation signal and carries the
shorter of the parent's deadline and the new timeout (deadlines are
remaining durations from the call). -/
def contextWithTimeout (parent : Ctx) (timeout : ℚ) : Ctx :=
  { parent with
    deadline := some (match parent.deadline with
      | none => timeout
      | some d => min d timeout) }

/-- Syntactic model of an `http.RoundTripper` value as assembled by this
repository: an opaque base transport carrying its behavior, the
`retryTransport` wrapper (src/retry.go), the `middlewareTransport` boundary
wrapper (src/unnamed/part_000 lines 19-25), a marker-appending interceptor
transport (the instrument of spec section 8's ordering property), and the
transport produced by `TimeoutMiddleware` (src/unnamed/part_000 lines
103-113). -/
inductive Transport where
  | base (sem : Request → Option Response × Option Err) : Transport
  | retryT (maxRetries : Int) (minBackoff maxBackoff : ℚ)
      (retryIf : Option Response → Option Err → Bool) (inner : Transport) : Transport
  | middlewareT (inner : Transport) : Transport
  | tagger (tag : Nat) (inner : Transport) : Transport
  | timeoutT (timeout : ℚ) (inner : Transport) : Transport

/-- The `Middleware` function type of src/unnamed/part_000 line 11. -/
def Middleware : Type := Transport → Transport

/-- Embedding of the `Options` struct (src/unnamed/part_001 lines 8-17),
restricted to the fields `buildMiddlewareChain` reads; a nil `RetryIf` is
`none`. -/
structure Options where
  MaxRetries : Int
  RetryMinBackoff : ℚ
  RetryMaxBackoff : ℚ
  RetryIf : Option (Option Response → Option Err → Bool)
  Middlewares : List Middleware

/-- Embedding of the descending loop
`for i := len(opts.Middlewares) - 1; i >= 0; i--` of `buildMiddlewareChain`
(src/unnamed/part_000 lines 47-49): the middleware at index len-1 is applied
first (innermost) and the middleware at index 0 last (outermost). -/
def applyMiddlewaresLoop (mws : List Middleware) (rt : Transport) : Transport :=
  match mws with
  | [] => rt
  | m :: rest => m (applyMiddlewaresLoop rest rt)

/-- Embedding of `buildMiddlewareChain` (src/unnamed/part_000 lines 28-53):
wrap the base with the retry layer when `MaxRetries > 0` (substituting
`DefaultRetryIf` for a nil predicate), apply the user middlewares from last
to first, and wrap the result in the `middlewareTransport` boundary. -/
def buildMiddlewareChain (base : Transport) (opts : Options) : Transport :=
  let rt := base
  let rt := if opts.MaxRetries > 0 then
      Transport.retryT opts.MaxRetries opts.RetryMinBackoff opts.RetryMaxBackoff
        (opts.RetryIf.getD DefaultRetryIf) rt
    else rt
  Transport.middlewareT (applyMiddlewaresLoop opts.Middlewares rt)

/-- Embedding of `TimeoutMiddleware` (src/unnamed/part_000 lines 103-113):
the middleware wrapping `next` in the timeout layer. -/
def TimeoutMiddleware (timeout : ℚ) : Middleware :=
  fun next => Transport.timeoutT timeout next

/-- The marker-appending interceptor of spec section 8's ordering property:
it appends its tag to the outgoing request, then delegates. -/
def taggerMiddleware (tag : Nat) : Middleware :=
  fun next => Transport.tagger tag next

/-- Observable outcome of invoking a composed transport: the returned
response and error, and how many derived cancellation contexts were released
(their cancel functions invoked) during the call. -/
structure RunResult where
  resp : Option Response
  err : Option Err
  cancels : Nat
deriving DecidableEq, Repr

/-- Operational semantics of a composed transport, one `RoundTrip` per
layer. The `middlewareT` boundary delegates the request unchanged
(src/unnamed/part_000 lines 23-25); the retry layer runs the embedded
`RoundTrip` loop over the inner transport with the request's cancellation
instant; the timeout layer derives the bounded context, attaches it to a
copy of the request, delegates, and releases the derived context's cancel on
its (single) exit, whatever the outcome — the `defer cancel()` of
src/unnamed/part_000 line 109. -/
def Transport.run : Transport → Request → RunResult
  | .base sem, req => ⟨(sem req).1, (sem req).2, 0⟩
  | .retryT mr minB maxB rIf inner, req =>
      let inres := Transport.run inner req
      let res := RoundTrip ⟨mr, minB, maxB, rIf⟩ (fun _ => (inres.resp, inres.err))
        req.ctx.cancelAt
      ⟨res.resp, res.err, res.invocations * inres.cancels⟩
  | .middlewareT inner, req => Transport.run inner req
  | .tagger t inner, req => Transport.run inner { req with markers := req.markers ++ [t] }
  | .timeoutT d inner, req =>
      let res := Transport.run inner { req with ctx := contextWithTimeout req.ctx d }
      ⟨res.resp, res.err, res.cancels + 1⟩

/-- The request as delivered to the innermost base transport (on the first
attempt, for the retry layer): each layer applies the same request
transformation it applies in `Transport.run`. -/
def Transport.deliveredReq : Transport → Request → Request
  | .base _, req => req
  | .retryT _ _ _ _ inner, req => Transport.deliveredReq inner req
  | .middlewareT inner, req => Transport.deliveredReq inner req
  | .tagger t inner, req =>
      Transport.deliveredReq inner { req with markers := req.markers ++ [t] }
  | .timeoutT d inner, req =>
      Transport.deliveredReq inner { req with ctx := contextWithTimeout req.ctx d }

theorem deliveredReq_applyTaggers (tags : List Nat) (rt : Transport) :
    ∀ req : Request,
      Transport.deliveredReq (applyMiddlewaresLoop (tags.map taggerMiddleware) rt) req
        = Transport.deliveredReq rt { req with markers := req.markers ++ tags } := by
  induction tags with
  | nil =>
    intro req
    simp [applyMiddlewaresLoop]
  | cons t ts ih =>
    intro req
    simp only [List.map_cons, applyMiddlewaresLoop, taggerMiddleware, Transport.deliveredReq]
    rw [ih]
    dsimp only
    rw [List.append_assoc, List.singleton_append]

/-- Claim C8. `buildMiddlewareChain` wraps the base with the retry executor
iff `MaxRetries > 0` (the retry layer sits innermost, beneath every user
middleware, inside the boundary wrapper); the user middlewares are applied
so that the first-declared one is outermost — with marker-appending
interceptors, the markers reach the base in declaration order; and the
boundary `middlewareT` wrapper delegates to its wrapped transport
unchanged. -/
theorem buildMiddlewareChain_layering (b : Transport) (opts : Options) (req : Request)
    (tags : List Nat) :
    (0 < opts.MaxRetries →
      buildMiddlewareChain b opts
        = Transport.middlewareT (applyMiddlewaresLoop opts.Middlewares
            (Transport.retryT opts.MaxRetries opts.RetryMinBackoff opts.RetryMaxBackoff
              (opts.RetryIf.getD DefaultRetryIf) b))) ∧
    (opts.MaxRetries ≤ 0 →
      buildMiddlewareChain b opts
        = Transport.middlewareT (applyMiddlewaresLoop opts.Middlewares b)) ∧
    (opts.Middlewares = tags.map taggerMiddleware →
      Transport.deliveredReq (buildMiddlewareChain b opts) req
        = Transport.deliveredReq b { req with markers := req.markers ++ tags }) ∧
    (∀ (inner : Transport) (q : Request),
      Transport.run (Transport.middlewareT inner) q = Transport.run inner q) := by
  refine ⟨?_, ?_, ?_, fun inner q => rfl⟩
  · intro h
    unfold buildMiddlewareChain
    dsimp only
    rw [if_pos h]
  · intro h
    unfold buildMiddlewareChain
    dsimp only
    rw [if_neg (not_lt.mpr h)]
  · intro hm
    unfold buildMiddlewareChain
    dsimp only
    by_cases h : opts.MaxRetries > 0
    · rw [if_pos h]
      show Transport.deliveredReq (applyMiddlewaresLoop opts.Middlewares _) req = _
      rw [hm, deliveredReq_applyTaggers]
      rfl
    · rw [if_neg h]
      show Transport.deliveredReq (applyMiddlewaresLoop opts.Middlewares _) req = _
      rw [hm, deliveredReq_applyTaggers]

theorem buildMiddlewareChain_layering_witness :
    buildMiddlewareChain (Transport.base fun _ => (none, none))
        ⟨2, 1, 5, none, [taggerMiddleware 0, taggerMiddleware 1]⟩
      = Transport.middlewareT (Transport.tagger 0 (Transport.tagger 1
          (Transport.retryT 2 1 5 DefaultRetryIf
            (Transport.base fun _ => (none, none))))) ∧
    Transport.deliveredReq (buildMiddlewareChain (Transport.base fun _ => (none, none))
        ⟨2, 1, 5, none, [taggerMiddleware 0, taggerMiddleware 1]⟩) ⟨[], ⟨none, none⟩⟩
      = ⟨[0, 1], ⟨none, none⟩⟩ := by
  have h := buildMiddlewareChain_layering (Transport.base fun _ => (none, none))
    ⟨2, 1, 5, none, [taggerMiddleware 0, taggerMiddleware 1]⟩ ⟨[], ⟨none, none⟩⟩ [0, 1]
  exact ⟨h.1 (by norm_num), h.2.2.1 rfl⟩

/-- Claim C9. The timeout layer produced by `TimeoutMiddleware` delegates to
the next transport with a copy of the request carrying the derived bounded
context (response and error pass through unchanged), releases exactly one
more derived cancellation context than the delegated call does — on every
exit, whatever the inner outcome (success, error, or cancellation) — and the
derived context carries the shorter of the parent deadline and the new
timeout while preserving the parent's cancellation signal and leaving the
rest of the request (its markers) unchanged. -/
theorem TimeoutMiddleware_ctx_scoped (inner : Transport) (req : Request)
    (d p : ℚ) (ca : Option Nat) :
    (Transport.run (TimeoutMiddleware d inner) req).cancels
      = (Transport.run inner { req with ctx := contextWithTimeout req.ctx d }).cancels + 1 ∧
    (Transport.run (TimeoutMiddleware d inner) req).resp
      = (Transport.run inner { req with ctx := contextWithTimeout req.ctx d }).resp ∧
    (Transport.run (TimeoutMiddleware d inner) req).err
      = (Transport.run inner { req with ctx := contextWithTimeout req.ctx d }).err ∧
    (contextWithTimeout ⟨ca, some p⟩ d).deadline = some (min p d) ∧
    (contextWithTimeout ⟨ca, none⟩ d).deadline = some d ∧
    ({ req with ctx := contextWithTimeout req.ctx d } : Request).markers = req.markers ∧
    (contextWithTimeout req.ctx d).cancelAt = req.ctx.cancelAt := by
  exact ⟨rfl, rfl, rfl, rfl, rfl, rfl, rfl⟩

end Httpx
